import Mathlib

/-!
Shallow embedding of the Baileys WhatsApp gateway server
(`server.js`: connection manager, outbound message tracker,
inbound webhook relay, credential persistence and HTTP handlers),
together with theorems settling the specification claims.

JavaScript strings are modelled as Lean `String` (or `List Char` where
character-level reasoning is needed); `undefined`/missing JSON fields as
`Option`; JS truthiness of a string value (`if (s)`) as non-emptiness.
-/

namespace Wapi

/-- Truthiness of a JS string-or-undefined value: `undefined` and the empty
string are falsy, every other string is truthy. -/
def jsTruthyStr : Option String → Bool
  | none => false
  | some s => decide (s ≠ "")

/-! ## Outbound Message Tracker

Embeds `const sentStore = new Map()` (messageId -> record with a type tag
and payload) and `const deleteOnDelivery = new Set()` (messageIds). -/

/-- An entry of `sentStore`: the `type` tag (`'text' | 'buttons' | 'list' |
'viewOnce'`), the destination jid from the payload, and the textual part of
the payload (message text or media caption). -/
structure SentRecord where
  rtype : String
  dest : String
  content : Option String
deriving Repr, DecidableEq

/-- Lookup in the sent-message map (JS `Map.get` / key membership). -/
def mapLookup : List (String × SentRecord) → String → Option SentRecord
  | [], _ => none
  | e :: t, k => if e.1 = k then some e.2 else mapLookup t k

/-- Removal from the sent-message map (JS `Map.delete`, state part). -/
def mapErase (m : List (String × SentRecord)) (k : String) : List (String × SentRecord) :=
  m.filter (fun e => e.1 != k)

/-- Insertion into the sent-message map (JS `Map.set`, overwriting). -/
def mapInsert (m : List (String × SentRecord)) (k : String) (v : SentRecord) :
    List (String × SentRecord) :=
  (k, v) :: mapErase m k

/-- Removal from the delete-on-delivery set (JS `Set.delete`, state part). -/
def setDel (s : List String) (id : String) : List String :=
  s.filter (fun x => x != id)

/-- Insertion into the delete-on-delivery set (JS `Set.add`). -/
def setAdd (s : List String) (id : String) : List String :=
  if id ∈ s then s else id :: s

/-- The tracker state: the two module-level collections of the server. -/
structure TrackerState where
  sentStore : List (String × SentRecord)
  deleteOnDelivery : List String
deriving Repr, DecidableEq

/-- One element of the array passed to the `messages.update` event handler:
`u.key?.id` and `u.update?.status`. -/
structure MsgUpdate where
  id : Option String
  status : Option Nat
deriving Repr, DecidableEq

/-- Body of the `messages.update` handler for a single update `u`:
`if (id && deleteOnDelivery.has(id) && (status === 3 || status === 4)) {
sentStore.delete(id); deleteOnDelivery.delete(id) }`. -/
def applyMsgUpdate (st : TrackerState) (u : MsgUpdate) : TrackerState :=
  match u.id with
  | none => st
  | some id =>
    if id ≠ "" ∧ id ∈ st.deleteOnDelivery ∧ (u.status = some 3 ∨ u.status = some 4) then
      { sentStore := mapErase st.sentStore id,
        deleteOnDelivery := setDel st.deleteOnDelivery id }
    else st

/-- The `messages.update` handler: iterates `applyMsgUpdate` over the array
of updates. -/
def messagesUpdateHandler (st : TrackerState) (us : List MsgUpdate) : TrackerState :=
  us.foldl applyMsgUpdate st

/-- Response of the `POST /delete` route. -/
inductive DeleteResp where
  | badRequest (error : String)
  | ok (removed : Bool)
deriving Repr, DecidableEq

/-- The `POST /delete` handler: validates `messageId`, then
`const existed = sentStore.delete(messageId); deleteOnDelivery.delete(messageId);
res.json({ ok: true, removed: existed })`. -/
def deleteHandler (st : TrackerState) (messageId : Option String) :
    TrackerState × DeleteResp :=
  if !jsTruthyStr messageId then (st, .badRequest "messageId required")
  else
    let id := messageId.getD ""
    ({ sentStore := mapErase st.sentStore id,
       deleteOnDelivery := setDel st.deleteOnDelivery id },
     .ok (mapLookup st.sentStore id).isSome)

/-! ### Basic lemmas about the collections -/

theorem mapLookup_mapErase_self (m : List (String × SentRecord)) (k : String) :
    mapLookup (mapErase m k) k = none := by
  induction m with
  | nil => rfl
  | cons e t ih =>
    by_cases h : e.1 = k
    · simpa [mapErase, List.filter_cons, h] using ih
    · simpa [mapErase, List.filter_cons, mapLookup, h] using ih

theorem mapLookup_mapErase_ne (m : List (String × SentRecord)) (k k' : String)
    (h : k' ≠ k) : mapLookup (mapErase m k) k' = mapLookup m k' := by
  induction m with
  | nil => rfl
  | cons e t ih =>
    by_cases he : e.1 = k
    · have hkk : k ≠ k' := fun hc => h hc.symm
      simpa [mapErase, List.filter_cons, mapLookup, he, hkk] using ih
    · by_cases he' : e.1 = k'
      · simp [mapErase, List.filter_cons, mapLookup, he, he', h]
      · simpa [mapErase, List.filter_cons, mapLookup, he, he'] using ih

theorem not_mem_setDel (s : List String) (id : String) : id ∉ setDel s id := by
  intro h
  simp [setDel, List.mem_filter] at h

theorem mem_setDel_ne (s : List String) (id k : String) (h : k ≠ id) :
    k ∈ setDel s id ↔ k ∈ s := by
  simp [setDel, List.mem_filter, h]

theorem mapLookup_mapInsert_self (m : List (String × SentRecord)) (k : String)
    (v : SentRecord) : mapLookup (mapInsert m k v) k = some v := by
  simp [mapInsert, mapLookup]

/-! ### Behaviour of `applyMsgUpdate` -/

/-- A qualifying acknowledgment on an armed id removes the record and the flag. -/
theorem applyMsgUpdate_qualifying (st : TrackerState) (id : String) (s : Nat)
    (hne : id ≠ "") (ha : id ∈ st.deleteOnDelivery) (hs : s = 3 ∨ s = 4) :
    applyMsgUpdate st ⟨some id, some s⟩ =
      { sentStore := mapErase st.sentStore id,
        deleteOnDelivery := setDel st.deleteOnDelivery id } := by
  simp only [applyMsgUpdate]
  rw [if_pos]
  refine ⟨hne, ha, ?_⟩
  rcases hs with h | h <;> simp [h]

/-- An acknowledgment for an id that is not armed changes nothing. -/
theorem applyMsgUpdate_unarmed (st : TrackerState) (id : String) (s : Option Nat)
    (ha : id ∉ st.deleteOnDelivery) :
    applyMsgUpdate st ⟨some id, s⟩ = st := by
  simp only [applyMsgUpdate]
  rw [if_neg]
  intro ⟨_, hmem, _⟩
  exact ha hmem

/-- A non-qualifying acknowledgment (status other than 3 and 4) changes nothing. -/
theorem applyMsgUpdate_nonqualifying (st : TrackerState) (id : String) (s : Nat)
    (hs : s ≠ 3 ∧ s ≠ 4) :
    applyMsgUpdate st ⟨some id, some s⟩ = st := by
  simp only [applyMsgUpdate]
  rw [if_neg]
  intro ⟨_, _, hq⟩
  rcases hq with h | h <;> [exact hs.1 (by injection h); exact hs.2 (by injection h)]

/-! ### Claims C1 and C5 -/

/-- C1: for every message id and delivery-status update, if the id is armed in
the delete-on-delivery set and the status is a qualifying acknowledgment (3 =
delivered, 4 = read), exactly the Outbound Record for that id is removed from
the sent store and the id is removed from the flag set; a non-qualifying
status (lower than 3, e.g. "sent") leaves record and flag membership
unchanged. -/
theorem delivery_ack_removes_exactly_armed (st : TrackerState) (id : String) (s : Nat)
    (hne : id ≠ "") (ha : id ∈ st.deleteOnDelivery) :
    ((s = 3 ∨ s = 4) →
      mapLookup (applyMsgUpdate st ⟨some id, some s⟩).sentStore id = none ∧
      (∀ k, k ≠ id →
        mapLookup (applyMsgUpdate st ⟨some id, some s⟩).sentStore k =
          mapLookup st.sentStore k) ∧
      id ∉ (applyMsgUpdate st ⟨some id, some s⟩).deleteOnDelivery ∧
      (∀ k, k ≠ id →
        (k ∈ (applyMsgUpdate st ⟨some id, some s⟩).deleteOnDelivery ↔
          k ∈ st.deleteOnDelivery))) ∧
    (s < 3 → applyMsgUpdate st ⟨some id, some s⟩ = st) := by
  constructor
  · intro hs
    rw [applyMsgUpdate_qualifying st id s hne ha hs]
    refine ⟨mapLookup_mapErase_self _ _, ?_, not_mem_setDel _ _, ?_⟩
    · intro k hk
      exact mapLookup_mapErase_ne _ _ _ hk
    · intro k hk
      exact mem_setDel_ne _ _ _ hk
  · intro hlt
    exact applyMsgUpdate_nonqualifying st id s ⟨by omega, by omega⟩

/-- Witness for C1 at a concrete state: id `"A"` armed with a stored text
record; status 4 removes both, status 2 changes nothing. -/
theorem delivery_ack_removes_exactly_armed_witness :
    mapLookup (applyMsgUpdate
        ⟨[("A", ⟨"text", "226@s.whatsapp.net", some "hi"⟩)], ["A"]⟩
        ⟨some "A", some 4⟩).sentStore "A" = none ∧
    applyMsgUpdate ⟨[("A", ⟨"text", "226@s.whatsapp.net", some "hi"⟩)], ["A"]⟩
        ⟨some "A", some 2⟩ =
      ⟨[("A", ⟨"text", "226@s.whatsapp.net", some "hi"⟩)], ["A"]⟩ :=
  ⟨((delivery_ack_removes_exactly_armed
      ⟨[("A", ⟨"text", "226@s.whatsapp.net", some "hi"⟩)], ["A"]⟩
      "A" 4 (by decide) (by simp)).1 (Or.inr rfl)).1,
   (delivery_ack_removes_exactly_armed
      ⟨[("A", ⟨"text", "226@s.whatsapp.net", some "hi"⟩)], ["A"]⟩
      "A" 2 (by decide) (by simp)).2 (by omega)⟩

/-- C5: explicit deletion (`POST /delete`) and delivery-triggered deletion are
mutually exclusive winners: applied in either order to an armed, recorded id,
the Outbound Record is removed exactly once (the second mechanism is a no-op
or reports `removed: false`), and any subsequent explicit deletion reports
that no record existed while the armed flag stays cleared. -/
theorem explicit_and_delivery_deletion_exclusive (st : TrackerState) (id : String)
    (r : SentRecord) (s : Nat) (hne : id ≠ "")
    (hr : mapLookup st.sentStore id = some r) (ha : id ∈ st.deleteOnDelivery)
    (hs : s = 3 ∨ s = 4) :
    ((deleteHandler st (some id)).2 = DeleteResp.ok true ∧
     applyMsgUpdate (deleteHandler st (some id)).1 ⟨some id, some s⟩ =
       (deleteHandler st (some id)).1 ∧
     (deleteHandler (deleteHandler st (some id)).1 (some id)).2 =
       DeleteResp.ok false) ∧
    (mapLookup (applyMsgUpdate st ⟨some id, some s⟩).sentStore id = none ∧
     (deleteHandler (applyMsgUpdate st ⟨some id, some s⟩) (some id)).2 =
       DeleteResp.ok false ∧
     id ∉ (deleteHandler (applyMsgUpdate st ⟨some id, some s⟩)
       (some id)).1.deleteOnDelivery) := by
  have htr : jsTruthyStr (some id) = true := by simp [jsTruthyStr, hne]
  have hdel : deleteHandler st (some id) =
      ({ sentStore := mapErase st.sentStore id,
         deleteOnDelivery := setDel st.deleteOnDelivery id },
       DeleteResp.ok (mapLookup st.sentStore id).isSome) := by
    simp [deleteHandler, htr]
  have hack : applyMsgUpdate st ⟨some id, some s⟩ =
      { sentStore := mapErase st.sentStore id,
        deleteOnDelivery := setDel st.deleteOnDelivery id } :=
    applyMsgUpdate_qualifying st id s hne ha hs
  refine ⟨⟨?_, ?_, ?_⟩, ?_, ?_, ?_⟩
  · rw [hdel, hr]
    rfl
  · rw [hdel]
    exact applyMsgUpdate_unarmed _ _ _ (not_mem_setDel _ _)
  · rw [hdel]
    simp [deleteHandler, htr, mapLookup_mapErase_self]
  · rw [hack]
    exact mapLookup_mapErase_self _ _
  · rw [hack]
    simp [deleteHandler, htr, mapLookup_mapErase_self]
  · rw [hack]
    simp only [deleteHandler, htr, Bool.not_true, Bool.false_eq_true, if_false]
    exact not_mem_setDel _ _

/-- Witness for C5 at a concrete state: id `"A"` recorded and armed, both
orders of explicit and delivery-triggered deletion at status 3. -/
theorem explicit_and_delivery_deletion_exclusive_witness :
    (deleteHandler ⟨[("A", ⟨"text", "226@s.whatsapp.net", some "hi"⟩)], ["A"]⟩
        (some "A")).2 = DeleteResp.ok true ∧
    (deleteHandler (applyMsgUpdate
        ⟨[("A", ⟨"text", "226@s.whatsapp.net", some "hi"⟩)], ["A"]⟩
        ⟨some "A", some 3⟩) (some "A")).2 = DeleteResp.ok false :=
  ⟨(explicit_and_delivery_deletion_exclusive
      ⟨[("A", ⟨"text", "226@s.whatsapp.net", some "hi"⟩)], ["A"]⟩
      "A" ⟨"text", "226@s.whatsapp.net", some "hi"⟩ 3 (by decide) (by decide)
      (by simp) (Or.inl rfl)).1.1,
   (explicit_and_delivery_deletion_exclusive
      ⟨[("A", ⟨"text", "226@s.whatsapp.net", some "hi"⟩)], ["A"]⟩
      "A" ⟨"text", "226@s.whatsapp.net", some "hi"⟩ 3 (by decide) (by decide)
      (by simp) (Or.inl rfl)).2.2.1⟩

/-! ## Connection Manager

Embeds the module-level `connectionState` / `latestQRDataURL` variables and
the `connection.update` event handler of the main server. -/

/-- The mutable connection-manager state: `connectionState` (fields
`authenticated` and `connection`, one of `'open' | 'close' | 'connecting'`)
plus `latestQRDataURL`. -/
structure ConnState where
  authenticated : Bool
  connection : String
  latestQRDataURL : Option String
deriving Repr, DecidableEq

/-- Initial state at module load: `{ authenticated: false, connection: 'close' }`
and `latestQRDataURL = null`. -/
def initialConnState : ConnState :=
  { authenticated := false, connection := "close", latestQRDataURL := none }

/-- A `connection.update` event: the destructured `connection`, `qr` and
`lastDisconnect?.error?.output?.statusCode` fields. -/
structure ConnUpdate where
  connection : Option String
  qr : Option String
  statusCode : Option Nat
deriving Repr, DecidableEq

/-- Scheduling effect of one `connection.update` invocation: whether
`setTimeout(initSocket, 2000)` was called, and with which delay. -/
structure ConnEffect where
  reconnectScheduled : Bool
  reconnectDelayMs : Nat
deriving Repr, DecidableEq

/-- No timer scheduled. -/
def noEffect : ConnEffect := { reconnectScheduled := false, reconnectDelayMs := 0 }

/-- Modelled from the spec: `QRCode.toDataURL` belongs to the external
`qrcode` library; the spec describes the artifact as the image-encoded
rendering of the QR payload. Only its presence matters to the claims. -/
def qrToDataURL (qr : String) : String :=
  "data:image/png;base64," ++ qr

/-- The `connection.update` handler: on a truthy `qr`, store its rendering and
set `authenticated=false, connection='connecting'`; on a truthy `connection`
value copy it into the state, set `authenticated=true` on `'open'`, and on
`'close'` set `authenticated=false` and schedule `initSocket` after 2000 ms
unless the disconnect status code is 401. -/
def connectionUpdateStep (st : ConnState) (u : ConnUpdate) : ConnState × ConnEffect :=
  let st1 :=
    if jsTruthyStr u.qr then
      { st with latestQRDataURL := some (qrToDataURL (u.qr.getD "")),
                authenticated := false, connection := "connecting" }
    else st
  if jsTruthyStr u.connection then
    let c := u.connection.getD ""
    if c = "open" then
      ({ st1 with connection := c, authenticated := true }, noEffect)
    else if c = "close" then
      ({ st1 with connection := c, authenticated := false },
       if u.statusCode ≠ some 401 then
         { reconnectScheduled := true, reconnectDelayMs := 2000 }
       else noEffect)
    else ({ st1 with connection := c }, noEffect)
  else (st1, noEffect)

/-- Folding the handler over a sequence of events (states only). -/
def runConnUpdates (st : ConnState) (us : List ConnUpdate) : ConnState :=
  us.foldl (fun s u => (connectionUpdateStep s u).1) st

/-- Response of `GET /auth`: when authenticated it carries only the connection
value, otherwise the retained QR data URL (possibly `null`). -/
inductive AuthResp where
  | authed (connection : String)
  | unauthed (qr : Option String)
deriving Repr, DecidableEq

/-- The `GET /auth` handler:
`if (connectionState.authenticated) return res.json({ authenticated: true,
connection }); return res.json({ authenticated: false, qr: latestQRDataURL })`. -/
def authGet (st : ConnState) : AuthResp :=
  if st.authenticated then .authed st.connection else .unauthed st.latestQRDataURL

/-! ### Claim C2 -/

/-- C2 counterexample: after the event sequence "qr issued, then connection
open", the state is authenticated but the pairing artifact is still retained —
the `'open'` branch never clears `latestQRDataURL`, refuting
"authenticated == true implies the retained pairing artifact is absent". -/
theorem open_does_not_clear_artifact_cex :
    (runConnUpdates initialConnState
        [⟨none, some "abc", none⟩, ⟨some "open", none, none⟩]).authenticated = true ∧
    (runConnUpdates initialConnState
        [⟨none, some "abc", none⟩, ⟨some "open", none, none⟩]).latestQRDataURL ≠
      none := by
  constructor <;> decide

/-- C2 amended: the connection-open event sets `authenticated` but retains the
stored pairing artifact unchanged; while `authenticated` is true, `GET /auth`
does not expose the artifact (it returns only the connection value), but the
stale artifact survives and can be exposed again after leaving the
authenticated state. -/
theorem auth_artifact_retained_not_exposed (st : ConnState)
    (h : st.authenticated = true) :
    authGet st = AuthResp.authed st.connection ∧
    ((connectionUpdateStep st ⟨some "open", none, none⟩).1).latestQRDataURL =
      st.latestQRDataURL := by
  constructor
  · simp [authGet, h]
  · simp [connectionUpdateStep, jsTruthyStr]

/-- Witness for the amended C2 at a concrete authenticated state holding a
stale artifact. -/
theorem auth_artifact_retained_not_exposed_witness :
    authGet ⟨true, "open", some "data:stale"⟩ = AuthResp.authed "open" ∧
    ((connectionUpdateStep ⟨true, "open", some "data:stale"⟩
        ⟨some "open", none, none⟩).1).latestQRDataURL = some "data:stale" :=
  auth_artifact_retained_not_exposed ⟨true, "open", some "data:stale"⟩ rfl

/-! ### Claim C3 -/

/-- C3 counterexample: the event sequence "connection open, then a bare
connection 'connecting' event (no qr)" reaches a state with
`authenticated = true` but `connection = "connecting"` — the handler copies
`'connecting'` into the state without touching `authenticated`, refuting the
invariant over the claimed event alphabet. -/
theorem authenticated_implies_open_cex :
    (runConnUpdates initialConnState
        [⟨some "open", none, none⟩, ⟨some "connecting", none, none⟩]).authenticated =
      true ∧
    (runConnUpdates initialConnState
        [⟨some "open", none, none⟩, ⟨some "connecting", none, none⟩]).connection ≠
      "open" := by
  constructor <;> decide

/-- An event that carries a pairing artifact, or whose connection value is
`'open'`, `'close'`, or not truthy (no bare `'connecting'` transition). -/
def goodConnEvent (u : ConnUpdate) : Prop :=
  jsTruthyStr u.qr = true ∨ u.connection = some "open" ∨
    u.connection = some "close" ∨ jsTruthyStr u.connection = false

instance (u : ConnUpdate) : Decidable (goodConnEvent u) := by
  unfold goodConnEvent
  infer_instance

/-- The C3 invariant. -/
def connInvariant (st : ConnState) : Prop :=
  st.authenticated = true → st.connection = "open"

/-- One good event preserves the invariant. -/
theorem connInvariant_step (st : ConnState) (u : ConnUpdate)
    (h : connInvariant st) (hu : goodConnEvent u) :
    connInvariant (connectionUpdateStep st u).1 := by
  unfold connInvariant at *
  unfold connectionUpdateStep
  by_cases hq : jsTruthyStr u.qr
  · by_cases hc : jsTruthyStr u.connection
    · rcases hco : u.connection with _ | c
      · rw [hco] at hc
        simp [jsTruthyStr] at hc
      · rw [hco] at hc
        have hopen : jsTruthyStr (some "open") = true := by decide
        have hclose : jsTruthyStr (some "close") = true := by decide
        by_cases h1 : c = "open"
        · simp [hq, hco, hc, h1, hopen]
        · by_cases h2 : c = "close" <;> simp [hq, hco, hc, h1, h2, hclose]
    · simp [hq, hc]
  · rcases hu with hu | hu | hu | hu
    · exact absurd hu hq
    · simp [hq, hu, jsTruthyStr]
    · simp [hq, hu, jsTruthyStr]
    · simpa [hq, hu] using h

/-- C3 amended: the invariant `authenticated == true → connection == 'open'`
holds in every state reachable from the initial state by sequences of
qr-issuance, `'open'` and `'close'` events; it is violated exactly by a bare
`'connecting'` connection event arriving while authenticated, which updates
the connection value but leaves `authenticated` untouched. -/
theorem authenticated_implies_open_good_events (us : List ConnUpdate)
    (hus : ∀ u ∈ us, goodConnEvent u) :
    connInvariant (runConnUpdates initialConnState us) := by
  have hgen : ∀ (l : List ConnUpdate) (st : ConnState), connInvariant st →
      (∀ u ∈ l, goodConnEvent u) → connInvariant (runConnUpdates st l) := by
    intro l
    induction l with
    | nil => intro st h _; exact h
    | cons u t ih =>
      intro st h hl
      exact ih _ (connInvariant_step st u h (hl u (by simp)))
        (fun v hv => hl v (by simp [hv]))
  exact hgen us initialConnState (by intro h; cases h) hus

/-- Witness for the amended C3: a concrete qr/open/close event sequence
satisfies the event restriction and lands in a state satisfying the
invariant. -/
theorem authenticated_implies_open_good_events_witness :
    (∀ u ∈ [(⟨none, some "abc", none⟩ : ConnUpdate), ⟨some "open", none, none⟩,
        ⟨some "close", none, some 440⟩], goodConnEvent u) ∧
    connInvariant (runConnUpdates initialConnState
      [⟨none, some "abc", none⟩, ⟨some "open", none, none⟩,
        ⟨some "close", none, some 440⟩]) :=
  ⟨by decide,
   authenticated_implies_open_good_events
     [⟨none, some "abc", none⟩, ⟨some "open", none, none⟩,
       ⟨some "close", none, some 440⟩] (by decide)⟩

/-! ### Claim C4 -/

/-- C4: on a `'close'` event whose disconnect reason carries status code 401,
no reconnect is scheduled and `authenticated` is false; on any other
disconnect reason a reconnect (`setTimeout(initSocket, 2000)`) is scheduled
with the fixed 2000 ms backoff. -/
theorem close_reconnect_policy (st : ConnState) (sc : Option Nat) :
    (sc = some 401 →
      (connectionUpdateStep st ⟨some "close", none, sc⟩).2 = noEffect ∧
      (connectionUpdateStep st ⟨some "close", none, sc⟩).1.authenticated = false) ∧
    (sc ≠ some 401 →
      (connectionUpdateStep st ⟨some "close", none, sc⟩).2 =
        { reconnectScheduled := true, reconnectDelayMs := 2000 } ∧
      (connectionUpdateStep st ⟨some "close", none, sc⟩).1.authenticated = false) := by
  constructor
  · intro h
    simp [connectionUpdateStep, jsTruthyStr, h]
  · intro h
    simp [connectionUpdateStep, jsTruthyStr, h]

/-- Witness for C4: terminal code 401 schedules nothing; code 440 schedules
the 2000 ms reconnect. -/
theorem close_reconnect_policy_witness :
    (connectionUpdateStep initialConnState ⟨some "close", none, some 401⟩).2 =
      noEffect ∧
    (connectionUpdateStep initialConnState ⟨some "close", none, some 440⟩).2 =
      { reconnectScheduled := true, reconnectDelayMs := 2000 } :=
  ⟨((close_reconnect_policy initialConnState (some 401)).1 rfl).1,
   ((close_reconnect_policy initialConnState (some 440)).2 (by decide)).1⟩

/-! ## Destination normalization (`toJid`)

Strings are handled at character level here, as `List Char`. -/

/-- Whitespace as removed by `String.prototype.trim` (common ASCII cases). -/
def isWS (c : Char) : Bool :=
  c == ' ' || c == '\t' || c == '\n' || c == '\r'

/-- Left trim. -/
def ltrim (l : List Char) : List Char := l.dropWhile isWS

/-- Right trim. -/
def rtrim (l : List Char) : List Char := (l.reverse.dropWhile isWS).reverse

/-- JS `String(x).trim()`. -/
def trimChars (l : List Char) : List Char := rtrim (ltrim l)

/-- The characters of the literal `'@s.whatsapp.net'` appended to digit
inputs. -/
def waSuffix : List Char := "@s.whatsapp.net".data

/-- Modelled from the spec: `jidNormalizedUser` belongs to the external
protocol-engine library (Baileys) and is not part of this repository; the
spec (§4.5) describes normalization of an already address-shaped input as
pass-through. -/
def jidNormalizedUser (s : List Char) : List Char := s

/-- The `toJid` helper: trim, then either normalize an address containing
`'@'` or keep only digits (JS `raw.replace(/\D/g, '')`) and append
`'@s.whatsapp.net'`. -/
def toJid (s : List Char) : List Char :=
  if '@' ∈ trimChars s then jidNormalizedUser (trimChars s)
  else (trimChars s).filter Char.isDigit ++ waSuffix

/-! ### Trim lemmas -/

theorem dropWhile_dropWhile (p : Char → Bool) (l : List Char) :
    (l.dropWhile p).dropWhile p = l.dropWhile p := by
  induction l with
  | nil => rfl
  | cons a t ih =>
    by_cases h : p a
    · simp [List.dropWhile_cons, h, ih]
    · simp [List.dropWhile_cons, h]

theorem mem_dropWhile (p : Char → Bool) (l : List Char) (a : Char)
    (ha : a ∈ l) (hp : p a = false) : a ∈ l.dropWhile p := by
  induction l with
  | nil => cases ha
  | cons b t ih =>
    by_cases h : p b
    · rw [List.dropWhile_cons, if_pos h]
      rcases List.mem_cons.mp ha with rfl | hm
      · rw [h] at hp
        cases hp
      · exact ih hm
    · rw [List.dropWhile_cons, if_neg h]
      exact ha

theorem dropWhile_prefix_decomp (p : Char → Bool) (l : List Char) :
    ∃ t, t ++ l.dropWhile p = l := by
  induction l with
  | nil => exact ⟨[], rfl⟩
  | cons a t ih =>
    by_cases h : p a
    · obtain ⟨u, hu⟩ := ih
      exact ⟨a :: u, by simp [List.dropWhile_cons, h, hu]⟩
    · exact ⟨[], by simp [List.dropWhile_cons, h]⟩

theorem length_dropWhile_le' (p : Char → Bool) (l : List Char) :
    (l.dropWhile p).length ≤ l.length := by
  induction l with
  | nil => exact Nat.le_refl 0
  | cons a t ih =>
    by_cases h : p a
    · rw [List.dropWhile_cons, if_pos h]
      exact Nat.le_succ_of_le ih
    · rw [List.dropWhile_cons, if_neg h]

theorem ltrim_ltrim (l : List Char) : ltrim (ltrim l) = ltrim l :=
  dropWhile_dropWhile isWS l

theorem rtrim_rtrim (l : List Char) : rtrim (rtrim l) = rtrim l := by
  unfold rtrim
  rw [List.reverse_reverse, dropWhile_dropWhile]

theorem ltrim_rtrim_of_ltrim_fixed (l : List Char) (h : ltrim l = l) :
    ltrim (rtrim l) = rtrim l := by
  rcases hr : rtrim l with _ | ⟨c, r⟩
  · rfl
  · have hpre : ∃ t, (c :: r) ++ t = l := by
      obtain ⟨t, ht⟩ := dropWhile_prefix_decomp isWS l.reverse
      refine ⟨t.reverse, ?_⟩
      have h2 := congrArg List.reverse ht
      rw [List.reverse_append, List.reverse_reverse] at h2
      rw [show (l.reverse.dropWhile isWS).reverse = c :: r from hr] at h2
      exact h2
    obtain ⟨t, ht⟩ := hpre
    have hc : isWS c = false := by
      by_contra hcc
      have hc' : isWS c = true := by
        cases hval : isWS c
        · exact absurd hval hcc
        · rfl
      have hdrop : ltrim l = (r ++ t).dropWhile isWS := by
        rw [← ht]
        simp [ltrim, List.dropWhile_cons, hc']
      rw [h] at hdrop
      have hlen := congrArg List.length hdrop
      rw [← ht] at hlen
      have hle := length_dropWhile_le' isWS (r ++ t)
      simp [List.length_append] at hlen hle
      omega
    simp [ltrim, List.dropWhile_cons, hc]

theorem trimChars_trimChars (l : List Char) :
    trimChars (trimChars l) = trimChars l := by
  show rtrim (ltrim (rtrim (ltrim l))) = rtrim (ltrim l)
  rw [ltrim_rtrim_of_ltrim_fixed (ltrim l) (ltrim_ltrim l), rtrim_rtrim]

theorem mem_trimChars (l : List Char) (a : Char) (ha : a ∈ l)
    (hp : isWS a = false) : a ∈ trimChars l := by
  have h1 : a ∈ l.dropWhile isWS := mem_dropWhile isWS l a ha hp
  have h2 : a ∈ (l.dropWhile isWS).reverse := List.mem_reverse.mpr h1
  have h3 := mem_dropWhile isWS _ a h2 hp
  exact List.mem_reverse.mpr h3

theorem dropWhile_eq_self_of_all (p : Char → Bool) (l : List Char)
    (h : ∀ c ∈ l, p c = false) : l.dropWhile p = l := by
  cases l with
  | nil => rfl
  | cons a t => rw [List.dropWhile_cons, if_neg (by simp [h a (by simp)])]

theorem trimChars_eq_self (l : List Char) (h : ∀ c ∈ l, isWS c = false) :
    trimChars l = l := by
  show rtrim (ltrim l) = l
  unfold ltrim rtrim
  rw [dropWhile_eq_self_of_all isWS l h,
      dropWhile_eq_self_of_all isWS l.reverse
        (fun c hc => h c (List.mem_reverse.mp hc)),
      List.reverse_reverse]

/-- A decimal digit is not whitespace. -/
theorem isWS_eq_false_of_isDigit (c : Char) (h : c.isDigit = true) :
    isWS c = false := by
  cases hval : isWS c
  · rfl
  · exfalso
    have h1 : (c == ' ' || c == '\t' || c == '\n' || c == '\r') = true := hval
    rw [Bool.or_eq_true, Bool.or_eq_true, Bool.or_eq_true] at h1
    rcases h1 with ((ha | ha) | ha) | ha <;>
      · have hc := eq_of_beq ha
        subst hc
        exact absurd h (by decide)

/-- The normalization is idempotent on every input. -/
theorem toJid_toJid (s : List Char) : toJid (toJid s) = toJid s := by
  unfold toJid jidNormalizedUser
  by_cases h : '@' ∈ trimChars s
  · rw [if_pos h, trimChars_trimChars, if_pos h]
  · rw [if_neg h]
    have hsuf : ∀ x ∈ waSuffix, isWS x = false := by decide
    have hws : ∀ c ∈ (trimChars s).filter Char.isDigit ++ waSuffix,
        isWS c = false := by
      intro c hc
      rcases List.mem_append.mp hc with hmem | hmem
      · exact isWS_eq_false_of_isDigit c (List.mem_filter.mp hmem).2
      · exact hsuf c hmem
    have hat : '@' ∈ (trimChars s).filter Char.isDigit ++ waSuffix :=
      List.mem_append.mpr (Or.inr (by decide))
    rw [trimChars_eq_self _ hws, if_pos hat]

/-- C9: `toJid` is idempotent on every valid destination input — a raw digit
string or an already-qualified address containing `'@'`:
`toJid (toJid x) = toJid x`. -/
theorem toJid_idempotent (s : List Char)
    (_hv : (∀ c ∈ s, c.isDigit = true) ∨ '@' ∈ s) :
    toJid (toJid s) = toJid s :=
  toJid_toJid s

/-- Witness for C9 at the raw digit string `'226700000'` and the qualified
address `'226700000@s.whatsapp.net'`. -/
theorem toJid_idempotent_witness :
    ((∀ c ∈ "226700000".data, c.isDigit = true) ∧
      toJid (toJid "226700000".data) = toJid "226700000".data) ∧
    ('@' ∈ "226700000@s.whatsapp.net".data ∧
      toJid (toJid "226700000@s.whatsapp.net".data) =
        toJid "226700000@s.whatsapp.net".data) :=
  ⟨⟨by decide, toJid_idempotent "226700000".data (Or.inl (by decide))⟩,
   ⟨by decide, toJid_idempotent "226700000@s.whatsapp.net".data
      (Or.inr (by decide))⟩⟩

/-! ## Credential persistence (`creds.update` -> `saveStateAndDB`) -/

/-- A persistence side effect: the local durable write (`saveState`) or the
remote upsert performed by `saveSessionToDB`. -/
inductive WriteOp where
  | localWrite
  | remotePersist
deriving Repr, DecidableEq, BEq

/-- Writes performed by `saveSessionToDB(blob)`: `if (!pool) return` — only a
configured pool issues the upsert query. -/
def saveSessionToDBOps (pool : Bool) : List WriteOp :=
  if pool then [WriteOp.remotePersist] else []

/-- Writes performed by one `saveStateAndDB()` call: `await saveState()` then
`saveSessionToDB(blob)` on the file contents, in that order. -/
def saveStateAndDBOps (pool : Bool) : List WriteOp :=
  WriteOp.localWrite :: saveSessionToDBOps pool

/-- The write trace produced by `n` successive `creds.update` events, each
invoking `saveStateAndDB`. -/
def credsUpdateTrace (pool : Bool) : Nat → List WriteOp
  | 0 => []
  | n + 1 => credsUpdateTrace pool n ++ saveStateAndDBOps pool

/-- C6: with a configured remote store, `n` credential-change events produce
exactly `n` remote persists, and the trace is `n` blocks of a local write
followed immediately by its remote persist — the local write of each event
precedes its remote persist. -/
theorem creds_update_local_then_remote (n : Nat) :
    credsUpdateTrace true n =
      (List.replicate n [WriteOp.localWrite, WriteOp.remotePersist]).flatten ∧
    (credsUpdateTrace true n).count WriteOp.remotePersist = n := by
  induction n with
  | zero => exact ⟨rfl, rfl⟩
  | succ n ih =>
    constructor
    · rw [credsUpdateTrace, ih.1, List.replicate_succ']
      simp [saveStateAndDBOps, saveSessionToDBOps]
    · rw [credsUpdateTrace, List.count_append, ih.2]
      rfl

/-! ## Inbound Relay (`messages.upsert` handler) -/

/-- An inbound message as seen by the handler: the `msg.key?.fromMe` flag and
identifying fields. -/
structure InboundMsg where
  fromMe : Bool
  id : String
  remoteJid : String
deriving Repr, DecidableEq

/-- Observable outcome of handling one inbound message: how many webhook POST
attempts were made, and which envelopes are retained afterwards (the server
stores none, in every branch). -/
structure RelayOutcome where
  webhookPosts : Nat
  retained : List InboundMsg
deriving Repr, DecidableEq

/-- Body of the `messages.upsert` loop for one message:
`if (fromMe) continue; if (!WEBHOOK_URL) continue;` then a single `fetch`
whose failure is caught and logged — the envelope is dropped either way
(`postOk` is the response/transport outcome and does not influence state). -/
def messagesUpsertStep (webhookURL : String) (msg : InboundMsg)
    (_postOk : Bool) : RelayOutcome :=
  if msg.fromMe then { webhookPosts := 0, retained := [] }
  else if webhookURL = "" then { webhookPosts := 0, retained := [] }
  else { webhookPosts := 1, retained := [] }

/-- C7: a self-originated message or an unconfigured webhook yields no POST;
otherwise exactly one forwarding attempt is made and the envelope is
discarded regardless of the attempt's outcome. -/
theorem inbound_relay_policy (url : String) (msg : InboundMsg) (ok1 ok2 : Bool) :
    (msg.fromMe = true →
      messagesUpsertStep url msg ok1 = { webhookPosts := 0, retained := [] }) ∧
    (url = "" →
      messagesUpsertStep url msg ok1 = { webhookPosts := 0, retained := [] }) ∧
    (msg.fromMe = false → url ≠ "" →
      (messagesUpsertStep url msg ok1).webhookPosts = 1 ∧
      (messagesUpsertStep url msg ok1).retained = [] ∧
      messagesUpsertStep url msg ok1 = messagesUpsertStep url msg ok2) := by
  refine ⟨?_, ?_, ?_⟩
  · intro h
    simp [messagesUpsertStep, h]
  · intro h
    by_cases hf : msg.fromMe <;> simp [messagesUpsertStep, h, hf]
  · intro hf hu
    simp [messagesUpsertStep, hf, hu]

/-- Witness for C7: a self-originated message is not forwarded; a foreign
message with a configured webhook is forwarded exactly once, with the same
outcome whether the POST succeeds or fails. -/
theorem inbound_relay_policy_witness :
    messagesUpsertStep "https://hook.example" ⟨true, "M1", "J1"⟩ true =
      { webhookPosts := 0, retained := [] } ∧
    (messagesUpsertStep "https://hook.example" ⟨false, "M2", "J2"⟩ true).webhookPosts =
      1 ∧
    messagesUpsertStep "https://hook.example" ⟨false, "M2", "J2"⟩ true =
      messagesUpsertStep "https://hook.example" ⟨false, "M2", "J2"⟩ false :=
  ⟨(inbound_relay_policy "https://hook.example" ⟨true, "M1", "J1"⟩ true false).1 rfl,
   ((inbound_relay_policy "https://hook.example" ⟨false, "M2", "J2"⟩ true false).2.2
      rfl (by decide)).1,
   ((inbound_relay_policy "https://hook.example" ⟨false, "M2", "J2"⟩ true false).2.2
      rfl (by decide)).2.2⟩

/-! ## HTTP send handlers -/

/-- `toJid` on Lean strings. -/
def toJidStr (s : String) : String := ⟨toJid s.data⟩

/-- Body of `POST /sendMessage`: `{ number, jid, message, delete: del }`. -/
structure SendBody where
  number : Option String
  jid : Option String
  message : Option String
  del : Bool
deriving Repr, DecidableEq

/-- Response of a send route. -/
inductive SendResp where
  | badRequest (error : String)
  | ok (id : String) (toAddr : String)
deriving Repr, DecidableEq

/-- Result of a send handler: the HTTP response, the tracker state afterwards,
and how many times `sock.sendMessage` was invoked. -/
structure SendOutcome where
  resp : SendResp
  tracker : TrackerState
  engineCalls : Nat
deriving Repr, DecidableEq

/-- The `POST /sendMessage` handler:
`if (!message || (!number && !jid)) return res.status(400)...`; otherwise
normalize the destination, send, record the sent message, and arm
delete-on-delivery when `delete` is truthy. `assignedId` is the message id
the protocol engine assigns to the send. -/
def sendMessageHandler (st : TrackerState) (assignedId : String) (b : SendBody) :
    SendOutcome :=
  if !jsTruthyStr b.message || (!jsTruthyStr b.number && !jsTruthyStr b.jid) then
    { resp := .badRequest "number/jid and message are required",
      tracker := st, engineCalls := 0 }
  else
    let toAddr := if jsTruthyStr b.jid then toJidStr (b.jid.getD "")
              else toJidStr (b.number.getD "")
    let st1 : TrackerState :=
      { sentStore := mapInsert st.sentStore assignedId ⟨"text", toAddr, b.message⟩,
        deleteOnDelivery := st.deleteOnDelivery }
    let st2 := if b.del then
        { st1 with deleteOnDelivery := setAdd st1.deleteOnDelivery assignedId }
      else st1
    { resp := .ok assignedId toAddr, tracker := st2, engineCalls := 1 }

/-- C8: a `POST /sendMessage` body lacking a destination (neither `number` nor
`jid` truthy) or lacking `message` yields the 400 validation response, no
engine call, and no change to the sent store or the flag set. -/
theorem sendMessage_validation (st : TrackerState) (aid : String) (b : SendBody)
    (h : jsTruthyStr b.message = false ∨
      (jsTruthyStr b.number = false ∧ jsTruthyStr b.jid = false)) :
    sendMessageHandler st aid b =
      { resp := .badRequest "number/jid and message are required",
        tracker := st, engineCalls := 0 } := by
  unfold sendMessageHandler
  rcases h with h | ⟨h1, h2⟩
  · rw [if_pos (by simp [h])]
  · rw [if_pos (by simp [h1, h2])]

/-- Witness for C8: `{message: "hi"}` with no destination is rejected with no
engine call and an unchanged tracker. -/
theorem sendMessage_validation_witness :
    sendMessageHandler ⟨[], []⟩ "X" ⟨none, none, some "hi", false⟩ =
      { resp := .badRequest "number/jid and message are required",
        tracker := ⟨[], []⟩, engineCalls := 0 } :=
  sendMessage_validation ⟨[], []⟩ "X" ⟨none, none, some "hi", false⟩
    (Or.inr ⟨rfl, rfl⟩)

/-- Body of `POST /sendViewOnceMedia`:
`{ number, jid, caption, mediaUrl, mediaBase64, mimetype }`. The `del` field
models a `delete: true` member of the request body — the handler never
destructures it. -/
structure ViewOnceBody where
  number : Option String
  jid : Option String
  caption : Option String
  mediaUrl : Option String
  mediaBase64 : Option String
  mimetype : Option String
  del : Bool
deriving Repr, DecidableEq

/-- The `POST /sendViewOnceMedia` handler: validate destination and media,
fetch the media when only `mediaUrl` is given (`fetchOk` is that request's
outcome), then send and record — the delete-on-delivery set is never
touched. -/
def sendViewOnceMediaHandler (st : TrackerState) (assignedId : String)
    (b : ViewOnceBody) (fetchOk : Bool) : SendOutcome :=
  if (!jsTruthyStr b.mediaUrl && !jsTruthyStr b.mediaBase64) ||
      (!jsTruthyStr b.number && !jsTruthyStr b.jid) then
    { resp := .badRequest "number/jid and media are required",
      tracker := st, engineCalls := 0 }
  else if !jsTruthyStr b.mediaBase64 && jsTruthyStr b.mediaUrl && !fetchOk then
    { resp := .badRequest "Failed to fetch media",
      tracker := st, engineCalls := 0 }
  else
    let toAddr := if jsTruthyStr b.jid then toJidStr (b.jid.getD "")
              else toJidStr (b.number.getD "")
    { resp := .ok assignedId toAddr,
      tracker := { sentStore := mapInsert st.sentStore assignedId
                     ⟨"viewOnce", toAddr, b.caption⟩,
                   deleteOnDelivery := st.deleteOnDelivery },
      engineCalls := 1 }

/-- C10: `POST /sendViewOnceMedia` never adds the assigned id to the
delete-on-delivery set — even when the body carries `delete: true` — so the
flag set is unchanged in every branch; on success the Outbound Record is
inserted, and for a fresh id a later delivery acknowledgment of any status
leaves the tracker (hence the record) intact. -/
theorem viewOnce_never_arms (st : TrackerState) (aid : String) (b : ViewOnceBody)
    (f : Bool) (hfresh : aid ∉ st.deleteOnDelivery) :
    (sendViewOnceMediaHandler st aid b f).tracker.deleteOnDelivery =
      st.deleteOnDelivery ∧
    ((sendViewOnceMediaHandler st aid b f).engineCalls = 1 →
      ∃ v, mapLookup (sendViewOnceMediaHandler st aid b f).tracker.sentStore aid =
        some v ∧ v.rtype = "viewOnce") ∧
    (∀ s : Nat, applyMsgUpdate (sendViewOnceMediaHandler st aid b f).tracker
        ⟨some aid, some s⟩ = (sendViewOnceMediaHandler st aid b f).tracker) := by
  unfold sendViewOnceMediaHandler
  split_ifs with h1 h2
  · exact ⟨rfl, fun hc => absurd hc (by simp),
      fun s => applyMsgUpdate_unarmed _ _ _ hfresh⟩
  · exact ⟨rfl, fun hc => absurd hc (by simp),
      fun s => applyMsgUpdate_unarmed _ _ _ hfresh⟩
  · refine ⟨rfl, fun _ => ⟨⟨"viewOnce", _, b.caption⟩,
      mapLookup_mapInsert_self _ _ _, rfl⟩,
      fun s => applyMsgUpdate_unarmed _ _ _ hfresh⟩
  · refine ⟨rfl, fun _ => ⟨⟨"viewOnce", _, b.caption⟩,
      mapLookup_mapInsert_self _ _ _, rfl⟩,
      fun s => applyMsgUpdate_unarmed _ _ _ hfresh⟩

/-- Witness for C10: a concrete successful view-once send whose body carries
`delete: true`; the flag set stays empty and a status-4 acknowledgment leaves
the tracker unchanged. -/
theorem viewOnce_never_arms_witness :
    (sendViewOnceMediaHandler ⟨[], []⟩ "V1"
        ⟨some "22670", none, some "cap", none, some "ZGF0YQ", some "image/png",
          true⟩ true).tracker.deleteOnDelivery = [] ∧
    applyMsgUpdate (sendViewOnceMediaHandler ⟨[], []⟩ "V1"
        ⟨some "22670", none, some "cap", none, some "ZGF0YQ", some "image/png",
          true⟩ true).tracker ⟨some "V1", some 4⟩ =
      (sendViewOnceMediaHandler ⟨[], []⟩ "V1"
        ⟨some "22670", none, some "cap", none, some "ZGF0YQ", some "image/png",
          true⟩ true).tracker :=
  ⟨(viewOnce_never_arms ⟨[], []⟩ "V1"
      ⟨some "22670", none, some "cap", none, some "ZGF0YQ", some "image/png",
        true⟩ true (by simp)).1,
   (viewOnce_never_arms ⟨[], []⟩ "V1"
      ⟨some "22670", none, some "cap", none, some "ZGF0YQ", some "image/png",
        true⟩ true (by simp)).2.2 4⟩

end Wapi
